import Mathlib

/-!
Verification of the owllegs bet-tracker core (src/bot.py, src/telegram_bot.py)
against its natural-language specification.

The Python functions are shallowly embedded as executable Lean definitions:
strings become `List Char`, floats become `ℚ`, the sqlite `bets` table becomes
a `List BetRow`, and Python's `re` module is embedded as a small backtracking
engine over a regex AST, with each source pattern transliterated to an AST
value.  Fallible Python operations (`int(...)`, `float(...)`, division by
zero) are modelled with `Option`.
-/

set_option maxRecDepth 10000

/-- Abbreviation: convert a string literal to the `List Char` the embedding
works on (Python strings are modelled as `List Char`). -/
def toL (s : String) : List Char := s.toList

/-- Python's `\s` / `str.isspace` character set (ASCII fragment). -/
def isSpaceC (c : Char) : Bool :=
  c = ' ' || c = '\t' || c = '\n' || c = '\r' || c = '\x0b' || c = '\x0c'

/-- Python's `\w` character class (ASCII fragment): letters, digits, underscore. -/
def isWordC (c : Char) : Bool := c.isAlphanum || c = '_'

/-- Python's `\d`. -/
def isDigitC (c : Char) : Bool := c.isDigit

/-- Left trim, as in Python's `str.strip()` (left half). -/
def trimLeft (s : List Char) : List Char := s.dropWhile isSpaceC

/-- Right trim, as in Python's `str.strip()` (right half). -/
def trimRight (s : List Char) : List Char := (s.reverse.dropWhile isSpaceC).reverse

/-- Python's `str.strip()`: remove leading and trailing whitespace. -/
def pyStrip (s : List Char) : List Char := trimRight (trimLeft s)

/-- Fuelled worker for `removeAll`; fuel `s.length` suffices because every
step consumes at least one character of the input. -/
def removeAllAux (pat : List Char) : Nat → List Char → List Char
  | 0, s => s
  | _ + 1, [] => []
  | fuel + 1, c :: rest =>
    if pat ≠ [] ∧ pat.isPrefixOf (c :: rest) then
      removeAllAux pat fuel ((c :: rest).drop pat.length)
    else
      c :: removeAllAux pat fuel rest

/-- Python's `re.sub(pat, '', s)` for a literal, metacharacter-free pattern:
delete every (left-to-right, non-overlapping) occurrence of `pat` in `s`. -/
def removeAll (pat s : List Char) : List Char := removeAllAux pat s.length s

/-- Whether the literal pattern `pat` occurs anywhere in `s`. -/
def occursIn (pat : List Char) : List Char → Bool
  | [] => false
  | c :: rest => pat.isPrefixOf (c :: rest) || occursIn pat rest

/-- The Slack mention markup `<@id>` for a user id, as used with `re.sub`
throughout `bot.py` (the id is word characters, so the pattern is literal). -/
def mentionLit (id : List Char) : List Char := '<' :: '@' :: (id ++ ['>'])

/-- The text normalization step shared by `parse_bet_message` (bot.py:993) and
`handle_mention` (bot.py:1122): remove the bot's own mention and trim
leading/trailing whitespace. -/
def normalize_text (botId text : List Char) : List Char :=
  pyStrip (removeAll (mentionLit botId) text)

/-- Digit run to a natural number (base 10). -/
def digitsToNat (ds : List Char) : Nat :=
  ds.foldl (fun acc c => acc * 10 + (c.toNat - '0'.toNat)) 0

/-- Python's `int(s)`: optional surrounding whitespace, optional sign, then a
nonempty digit run; anything else raises (modelled as `none`). -/
def parseInt? (s0 : List Char) : Option Int :=
  let s := pyStrip s0
  let (sgn, s1) : Int × List Char :=
    match s with
    | '+' :: r => (1, r)
    | '-' :: r => (-1, r)
    | _ => (1, s)
  let ds := s1.takeWhile isDigitC
  let rest := s1.dropWhile isDigitC
  if ds = [] ∨ rest ≠ [] then none
  else some (sgn * (digitsToNat ds : Int))

/-- Python's `float(s)` on finite decimal notation: optional surrounding
whitespace and sign, integer part and/or fractional part (at least one digit
overall), optional `e`/`E` exponent.  `inf`/`nan` are not representable in ℚ
and are modelled as `none` (they fall into the same fail-soft defaults). -/
def parseFloat? (s0 : List Char) : Option ℚ :=
  let s := pyStrip s0
  let (sgn, s1) : ℚ × List Char :=
    match s with
    | '+' :: r => (1, r)
    | '-' :: r => (-1, r)
    | _ => (1, s)
  let ip := s1.takeWhile isDigitC
  let r1 := s1.dropWhile isDigitC
  let (fp, r2) : List Char × List Char :=
    match r1 with
    | '.' :: r => (r.takeWhile isDigitC, r.dropWhile isDigitC)
    | _ => ([], r1)
  if ip = [] ∧ fp = [] then none
  else
    let mant : ℚ := (digitsToNat ip : ℚ) + (digitsToNat fp : ℚ) / ((10 : ℚ) ^ fp.length)
    match r2 with
    | [] => some (sgn * mant)
    | 'e' :: r3 =>
      let (esgn, r4) : Int × List Char :=
        match r3 with
        | '+' :: r => (1, r)
        | '-' :: r => (-1, r)
        | _ => (1, r3)
      let ed := r4.takeWhile isDigitC
      let r5 := r4.dropWhile isDigitC
      if ed = [] ∨ r5 ≠ [] then none
      else some (sgn * mant * (10 : ℚ) ^ (esgn * (digitsToNat ed : Int)))
    | 'E' :: r3 =>
      let (esgn, r4) : Int × List Char :=
        match r3 with
        | '+' :: r => (1, r)
        | '-' :: r => (-1, r)
        | _ => (1, r3)
      let ed := r4.takeWhile isDigitC
      let r5 := r4.dropWhile isDigitC
      if ed = [] ∨ r5 ≠ [] then none
      else some (sgn * mant * (10 : ℚ) ^ (esgn * (digitsToNat ed : Int)))
    | _ => none

/-- The "already decimal" first branch of `parse_odds` (bot.py:402-407,
telegram_bot.py:111-115): only taken when the token contains a `.` and has no
explicit sign prefix; the inner `float()` failure falls through (`none`). -/
def oddsFloatBranch (s : List Char) : Option ℚ :=
  if ('.' ∈ s) ∧ ¬(s.head? = some '+' ∨ s.head? = some '-') then parseFloat? s
  else none

/-- `parse_odds` (bot.py:396-419 and the identical telegram_bot.py:107-126):
American or decimal odds to a decimal multiplier, on `List Char`.
`int(odds_str.replace('+', ''))` is the sign-stripped integer attempt; a zero
value makes `100 / abs(odds_int)` raise `ZeroDivisionError`, which the bare
`except` swallows, falling through to the `1.0` default. -/
def parse_oddsL (s0 : List Char) : ℚ :=
  let s := pyStrip s0
  match oddsFloatBranch s with
  | some q => q
  | none =>
    match parseInt? (s.filter (fun c => c ≠ '+')) with
    | some n =>
      if 0 < n then 1 + (n : ℚ) / 100
      else if n = 0 then 1
      else 1 + 100 / ((-n : Int) : ℚ)
    | none => 1

/-- String-level wrapper for `parse_odds`. -/
def parse_odds (s : String) : ℚ := parse_oddsL s.toList

section
attribute [local semireducible] Rat.add Rat.mul Rat.inv Rat.sub
example : parse_odds "+150" = 5 / 2 := by decide
example : parse_odds "2.5" = 5 / 2 := by decide
example : parse_odds "-150" = 5 / 3 := by decide
example : parse_odds "garbage" = 1 := by decide
example : parse_odds "0" = 1 := by decide
end

/-!
## A small backtracking regex engine

Python's `re` patterns used by the source are transliterated to values of the
`Re` AST below.  `matchRe` implements the standard backtracking semantics:
alternatives are tried left to right, quantifiers are greedy, `re.search`
tries successive start positions left to right.  The engine is fuelled so
that every definition is executable by the kernel; the fuel below bounds the
depth of one backtracking path and is sufficient for every pattern/input pair
the development evaluates.
-/

/-- Regex AST: empty, character class, concatenation, alternation (left
first), greedy star, greedy option, capture group, `^` and `$` anchors. -/
inductive Re where
  | eps : Re
  | cls : (Char → Bool) → Re
  | seq : Re → Re → Re
  | alt : Re → Re → Re
  | star : Re → Re
  | opt : Re → Re
  | grp : Nat → Re → Re
  | bos : Re
  | eos : Re

/-- Size of a pattern, used to compute a sufficient fuel. -/
def Re.size : Re → Nat
  | .eps => 1
  | .cls _ => 1
  | .seq a b => 1 + a.size + b.size
  | .alt a b => 1 + a.size + b.size
  | .star a => 1 + a.size
  | .opt a => 1 + a.size
  | .grp _ a => 1 + a.size
  | .bos => 1
  | .eos => 1

/-- Captured groups: list of (group index, captured text); the last entry for
an index is the relevant one. -/
abbrev Caps := List (Nat × List Char)

/-- Backtracking matcher in continuation-passing style.  `total` is the
length of the whole subject (so `bos` can recognise the absolute start),
`s` the remaining input, `k` the success continuation receiving the rest of
the input and the captures.  Alternation and option try their first
possibility first; `star` is greedy.  Fuel decreases at every node, bounding
the depth of a single backtracking path. -/
def matchRe (total : Nat) : Nat → Re → List Char → Caps →
    (List Char → Caps → Option (List Char × Caps)) → Option (List Char × Caps)
  | 0, _, _, _, _ => none
  | _ + 1, .eps, s, caps, k => k s caps
  | _ + 1, .bos, s, caps, k => if s.length = total then k s caps else none
  | _ + 1, .eos, s, caps, k => if s = [] then k s caps else none
  | _ + 1, .cls p, s, caps, k =>
    match s with
    | [] => none
    | c :: r => if p c then k r caps else none
  | f + 1, .seq a b, s, caps, k =>
    matchRe total f a s caps (fun s2 c2 => matchRe total f b s2 c2 k)
  | f + 1, .alt a b, s, caps, k =>
    match matchRe total f a s caps k with
    | some r => some r
    | none => matchRe total f b s caps k
  | f + 1, .opt a, s, caps, k =>
    match matchRe total f a s caps k with
    | some r => some r
    | none => k s caps
  | f + 1, .star a, s, caps, k =>
    match matchRe total f a s caps
        (fun s2 c2 => matchRe total f (.star a) s2 c2 k) with
    | some r => some r
    | none => k s caps
  | f + 1, .grp i a, s, caps, k =>
    matchRe total f a s caps
      (fun s2 c2 => k s2 (c2 ++ [(i, s.take (s.length - s2.length))]))

/-- Fuel sufficient for matching `r` against a suffix of length `n`. -/
def fuelFor (r : Re) (n : Nat) : Nat := (r.size + 2) * (n + 2) + 100

/-- Try to match `r` at the start of `s` (a suffix of a subject of length
`total`); returns the number of characters consumed and the captures. -/
def matchAtPos (r : Re) (total : Nat) (s : List Char) : Option (Nat × Caps) :=
  match matchRe total (fuelFor r s.length) r s [] (fun s2 c2 => some (s2, c2)) with
  | some (rem, caps) => some (s.length - rem.length, caps)
  | none => none

/-- `re.search`: leftmost match.  Returns (absolute start index, length,
captures).  `total` stays the length of the original subject while the
search walks down its suffixes. -/
def reSearchAux (r : Re) (total : Nat) : List Char → Option (Nat × Nat × Caps)
  | [] =>
    match matchAtPos r total [] with
    | some (len, caps) => some (total, len, caps)
    | none => none
  | c :: t =>
    match matchAtPos r total (c :: t) with
    | some (len, caps) => some (total - (c :: t).length, len, caps)
    | none => reSearchAux r total t

/-- `re.search(r, s)` on a whole subject. -/
def reSearchL (r : Re) (s : List Char) : Option (Nat × Nat × Caps) :=
  reSearchAux r s.length s

/-- Last capture recorded for group `i` (empty if the group did not
participate). -/
def capGet (caps : Caps) (i : Nat) : List Char :=
  match caps.reverse.find? (fun e => e.1 == i) with
  | some e => e.2
  | none => []

/-- `re.findall` worker: repeatedly search, collect group 1, and resume after
the end of each match (advancing at least one character). -/
def reFindallAux (r : Re) (orig : List Char) : Nat → List Char → List (List Char)
  | 0, _ => []
  | f + 1, s =>
    match reSearchAux r orig.length s with
    | none => []
    | some (start, len, caps) =>
      capGet caps 1 :: reFindallAux r orig f (orig.drop (start + max len 1))

/-- `re.findall(r, s)` for patterns with a single capture group. -/
def reFindall (r : Re) (s : List Char) : List (List Char) :=
  reFindallAux r s (s.length + 1) s

/-- `re.sub(r, '', s)` for a pattern anchored at `^` (no MULTILINE): remove
the match at position 0, if any. -/
def subAnchored (r : Re) (s : List Char) : List Char :=
  match matchAtPos r s.length s with
  | some (len, _) => s.drop len
  | none => s

/-- Literal regex fragment (case sensitive). -/
def rlit (s : String) : Re :=
  s.toList.foldr (fun c r => Re.seq (Re.cls (fun d => d = c)) r) Re.eps

/-- Literal regex fragment under `re.IGNORECASE`. -/
def rlitCI (s : String) : Re :=
  s.toList.foldr (fun c r => Re.seq (Re.cls (fun d => d.toLower = c.toLower)) r) Re.eps

/-- Concatenation of a list of fragments. -/
def rseqs (l : List Re) : Re := l.foldr Re.seq Re.eps

/-- `\w`, `\s`, `\d`, and `.` (which does not match a newline). -/
def rW : Re := Re.cls isWordC
def rS : Re := Re.cls isSpaceC
def rD : Re := Re.cls isDigitC
def rDot : Re := Re.cls (fun c => decide (c ≠ '\n'))

/-- `r+` is `r r*`. -/
def rplus (r : Re) : Re := Re.seq r (Re.star r)

example : (reSearchL (rseqs [rlit "a", rplus rD]) (toL "xa12b")).map
    (fun r => (r.1, r.2.1)) = some (1, 3) := by decide

/-!
## The bets table and its operations (bot.py)

A row of the sqlite `bets` table (init_db, bot.py:56-73).  `winner_id` and
`resolved_at` are NULL until resolution, hence `Option`.  The database is a
list of rows; SQL `UPDATE ... WHERE` is a map over the rows, and `rowcount`
counts the rows satisfying the WHERE clause.
-/

structure BetRow where
  id : Nat
  channel_id : String
  person1_id : String
  person1_name : String
  person2_id : String
  person2_name : String
  amount : String
  description : String
  status : String
  winner_id : Option String
  created_at : String
  resolved_at : Option String
  created_by : String
deriving DecidableEq, Repr

/-- `settle_bet` (bot.py:144-155): `UPDATE bets SET status = 'settled',
winner_id = ?, resolved_at = ? WHERE id = ? AND status = 'open'`, returning
`rowcount > 0`.  `winnerName` is accepted (as in the Python signature) but
unused by the SQL.  `now` stands for `datetime.now().isoformat()`. -/
def settle_bet (db : List BetRow) (betId : Nat) (winnerId _winnerName now : String) :
    List BetRow × Bool :=
  (db.map fun b =>
     if b.id = betId ∧ b.status = "open" then
       { b with status := "settled", winner_id := some winnerId, resolved_at := some now }
     else b,
   0 < db.countP fun b => decide (b.id = betId ∧ b.status = "open"))

/-- Amount parsing used by the ledger (bot.py:202-206, 252-256):
`float(amount.replace('$', '').replace(',', ''))`, with the bare `except`
turning any failure into `0`. -/
def parseAmount (s : String) : ℚ :=
  (parseFloat? (s.toList.filter (fun c => c ≠ '$' ∧ c ≠ ','))).getD 0

/-- One balances-dict entry: user id key (`None` possible in principle, hence
`Option`), display name, running balance. -/
abbrev BalMap := List (Option String × String × ℚ)

/-- `balances[key]['balance'] += δ`, inserting `{'name': nm, 'balance': 0}`
first when the key is absent (bot.py:208-216); Python dicts preserve
insertion order, hence append at the end. -/
def updBal (m : BalMap) (k : Option String) (nm : String) (δ : ℚ) : BalMap :=
  match m with
  | [] => [(k, nm, δ)]
  | e :: rest =>
    if e.1 = k then (e.1, e.2.1, e.2.2 + δ) :: rest
    else e :: updBal rest k nm δ

/-- Processing of one settled row by `get_balances` (bot.py:195-216). -/
def balStep (acc : BalMap) (b : BetRow) : BalMap :=
  let loserId := if b.winner_id = some b.person2_id then b.person1_id else b.person2_id
  let winnerName := if b.winner_id = some b.person1_id then b.person1_name else b.person2_name
  let loserName := if b.winner_id = some b.person1_id then b.person2_name else b.person1_name
  let a := parseAmount b.amount
  updBal (updBal acc b.winner_id winnerName a) (some loserId) loserName (-a)

/-- `get_balances` (bot.py:183-218): iterate over the rows with
`status = 'settled'`. -/
def get_balances (db : List BetRow) : BalMap :=
  (db.filter fun b => b.status == "settled").foldl balStep []

/-- `sum(balances.values())` over the `'balance'` fields. -/
def sumBal (m : BalMap) : ℚ := (m.map fun e => e.2.2).sum

/-- One debts-dict entry: counterparty id, name, net amount. -/
abbrev DebtMap := List (String × String × ℚ)

/-- `debts[k]['amount'] += δ` with insert-on-absence (bot.py:258-266). -/
def updDebt (m : DebtMap) (k nm : String) (δ : ℚ) : DebtMap :=
  match m with
  | [] => [(k, nm, δ)]
  | e :: rest =>
    if e.1 = k then (e.1, e.2.1, e.2.2 + δ) :: rest
    else e :: updDebt rest k nm δ

/-- Processing of one relevant settled row by `get_user_debts`
(bot.py:246-266): the counterparty's running net gains `amount` if the user
won, loses it otherwise. -/
def debtStep (u : String) (acc : DebtMap) (b : BetRow) : DebtMap :=
  let other :=
    if b.person1_id = u then (b.person2_id, b.person2_name)
    else (b.person1_id, b.person1_name)
  let a := parseAmount b.amount
  updDebt acc other.1 other.2 (if b.winner_id = some u then a else -a)

/-- `get_user_debts` (bot.py:227-269): rows with `status = 'settled'` and
the user as either participant, scanned in table order. -/
def get_user_debts (db : List BetRow) (u : String) : DebtMap :=
  (db.filter fun b =>
      b.status == "settled" && (b.person1_id == u || b.person2_id == u)).foldl
    (debtStep u) []

/-- `debts[u][v]` read off the debts dict, `0` when absent. -/
def lookupDebt (m : DebtMap) (v : String) : ℚ :=
  match m.find? (fun e => e.1 == v) with
  | some e => e.2.2
  | none => 0

/-- Net debt from `u`'s perspective toward `v`. -/
def debtTo (db : List BetRow) (u v : String) : ℚ := lookupDebt (get_user_debts db u) v

/-!
## BetParser: `parse_bet_message` (bot.py:990-1098)

Each regex of the rule cascade is transliterated to a `Re` value; group
numbering follows the source patterns.  All searches run under
`re.IGNORECASE` (case-insensitive literals).
-/

/-- `<@(\w+)>` with the word run captured as group `i`. -/
def rMention (i : Nat) : Re := rseqs [rlit "<@", Re.grp i (rplus rW), rlit ">"]

/-- `\$?(\d+(?:\.\d{2})?)` with the number captured as group `i`. -/
def rAmount (i : Nat) : Re :=
  Re.seq (Re.opt (rlit "$"))
    (Re.grp i (Re.seq (rplus rD) (Re.opt (rseqs [rlit ".", rD, rD]))))

/-- Rule 1 (bot.py:996): `<@(\w+)>\s+(?:vs\.?|versus)\s+<@(\w+)>\s+\$?(\d+(?:\.\d{2})?)\s+(.+)` -/
def betPat1 : Re :=
  rseqs [rMention 1, rplus rS,
         Re.alt (Re.seq (rlitCI "vs") (Re.opt (rlit "."))) (rlitCI "versus"),
         rplus rS, rMention 2, rplus rS, rAmount 3, rplus rS,
         Re.grp 4 (rplus rDot)]

/-- Rule 2 (bot.py:1007): `<@(\w+)>\s+owes\s+<@(\w+)>\s+\$?(\d+(?:\.\d{2})?)\s*(?:for\s+)?(.*)` -/
def betPat2 : Re :=
  rseqs [rMention 1, rplus rS, rlitCI "owes", rplus rS, rMention 2, rplus rS,
         rAmount 3, Re.star rS, Re.opt (Re.seq (rlitCI "for") (rplus rS)),
         Re.grp 4 (Re.star rDot)]

/-- Rule 3 (bot.py:1018): `(?:i\s+)?bet\s+<@(\w+)>\s+\$?(\d+(?:\.\d{2})?)\s*(.*)` -/
def betPat3 : Re :=
  rseqs [Re.opt (Re.seq (rlitCI "i") (rplus rS)), rlitCI "bet", rplus rS,
         rMention 1, rplus rS, rAmount 2, Re.star rS, Re.grp 3 (Re.star rDot)]

/-- Rule 4 (bot.py:1029): `<@(\w+)>\s+\$?(\d+(?:\.\d{2})?)\s+(?:on|that|for)?\s*(.*)` -/
def betPat4 : Re :=
  rseqs [rMention 1, rplus rS, rAmount 2, rplus rS,
         Re.opt (Re.alt (rlitCI "on") (Re.alt (rlitCI "that") (rlitCI "for"))),
         Re.star rS, Re.grp 3 (Re.star rDot)]

/-- Rule 5 (bot.py:1040): `\$?(\d+(?:\.\d{2})?)\s+(?:with|against|vs)?\s*<@(\w+)>\s*(.*)` -/
def betPat5 : Re :=
  rseqs [rAmount 1, rplus rS,
         Re.opt (Re.alt (rlitCI "with") (Re.alt (rlitCI "against") (rlitCI "vs"))),
         Re.star rS, rMention 2, Re.star rS, Re.grp 3 (Re.star rDot)]

/-- Last-resort mention scan (bot.py:1052): `<@(\w+)>`. -/
def mentionPat : Re := rMention 1

/-- Last-resort dollar amounts (bot.py:1056): `\$(\d+(?:\.\d{2})?)`. -/
def dollarPat : Re :=
  Re.seq (rlit "$")
    (Re.grp 1 (Re.seq (rplus rD) (Re.opt (rseqs [rlit ".", rD, rD]))))

/-- Last-resort standalone numbers (bot.py:1060):
`(?:^|[\s,])(\d{2,})(?:[\s,.]|$)`. -/
def standalonePat : Re :=
  rseqs [Re.alt Re.bos (Re.cls (fun c => isSpaceC c || c = ',')),
         Re.grp 1 (rseqs [rD, rD, Re.star rD]),
         Re.alt (Re.cls (fun c => isSpaceC c || c = ',' || c = '.')) Re.eos]

/-- Numeric value of a collected token, as `float(x)` (used for the `>= 1`
filter and the sort key, bot.py:1067-1070). -/
def amtVal (a : List Char) : ℚ := (parseFloat? a).getD 0

/-- Stable descending insertion for `sorted(amounts, key=float,
reverse=True)`: an element moves left past exactly the strictly smaller
values, so equal keys keep their original order. -/
def insertDesc (x : List Char) : List (List Char) → List (List Char)
  | [] => [x]
  | y :: ys => if amtVal x < amtVal y then y :: insertDesc x ys else x :: y :: ys

/-- `sorted(amounts, key=lambda x: float(x), reverse=True)` (bot.py:1070). -/
def sortDesc (l : List (List Char)) : List (List Char) :=
  match l with
  | [] => []
  | x :: xs => insertDesc x (sortDesc xs)

/-- `re.sub(rf'\$?{re.escape(amt)}', '', desc, count=1)` (bot.py:1080):
remove the leftmost occurrence of the amount, preferring the `$`-prefixed
form at a given position (greedy `\$?`). -/
def removeFirstAmt (amt : List Char) : List Char → List Char
  | [] => []
  | c :: rest =>
    if ('$' :: amt).isPrefixOf (c :: rest) then (c :: rest).drop (amt.length + 1)
    else if amt.isPrefixOf (c :: rest) then (c :: rest).drop amt.length
    else c :: removeFirstAmt amt rest

/-- `re.sub(r'\s+', ' ', desc)` (bot.py:1081): collapse whitespace runs to a
single space.  The flag records whether the previous character was space. -/
def collapseWsAux : Bool → List Char → List Char
  | _, [] => []
  | prev, c :: t =>
    if isSpaceC c then
      if prev then collapseWsAux true t else ' ' :: collapseWsAux true t
    else c :: collapseWsAux false t

def collapseWs (s : List Char) : List Char := collapseWsAux false s

/-- `re.sub(r'^(bet|i bet|on|that|for)\s*', '', desc, flags=re.IGNORECASE)`
(bot.py:1082): alternatives in source order, then trailing spaces. -/
def stripLeadBoiler (s : List Char) : List Char :=
  let low := s.map Char.toLower
  if (toL "bet").isPrefixOf low then trimLeft (s.drop 3)
  else if (toL "i bet").isPrefixOf low then trimLeft (s.drop 5)
  else if (toL "on").isPrefixOf low then trimLeft (s.drop 2)
  else if (toL "that").isPrefixOf low then trimLeft (s.drop 4)
  else if (toL "for").isPrefixOf low then trimLeft (s.drop 3)
  else s

/-- Result record of `parse_bet_message`. -/
structure ParsedBet where
  person1_id : List Char
  person2_id : List Char
  amount : List Char
  description : List Char
deriving DecidableEq, Repr

/-- `x or default` on strings. -/
def orDefault (s d : List Char) : List Char := if s = [] then d else s

/-- Rule 1 applied to the normalized text (bot.py:996-1004). -/
def tryRule1 (t : List Char) : Option ParsedBet :=
  match reSearchL betPat1 t with
  | some (_, _, caps) =>
    some ⟨capGet caps 1, capGet caps 2, '$' :: capGet caps 3, pyStrip (capGet caps 4)⟩
  | none => none

/-- Rule 2 (bot.py:1007-1015); empty description defaults to `"debt"`. -/
def tryRule2 (t : List Char) : Option ParsedBet :=
  match reSearchL betPat2 t with
  | some (_, _, caps) =>
    some ⟨capGet caps 1, capGet caps 2, '$' :: capGet caps 3,
          orDefault (pyStrip (capGet caps 4)) (toL "debt")⟩
  | none => none

/-- Rule 3 (bot.py:1018-1026); sender is participant 1. -/
def tryRule3 (t sender : List Char) : Option ParsedBet :=
  match reSearchL betPat3 t with
  | some (_, _, caps) =>
    some ⟨sender, capGet caps 1, '$' :: capGet caps 2,
          orDefault (pyStrip (capGet caps 3)) (toL "bet")⟩
  | none => none

/-- Rule 4 (bot.py:1029-1037). -/
def tryRule4 (t sender : List Char) : Option ParsedBet :=
  match reSearchL betPat4 t with
  | some (_, _, caps) =>
    some ⟨sender, capGet caps 1, '$' :: capGet caps 2,
          orDefault (pyStrip (capGet caps 3)) (toL "bet")⟩
  | none => none

/-- Rule 5 (bot.py:1040-1048). -/
def tryRule5 (t sender : List Char) : Option ParsedBet :=
  match reSearchL betPat5 t with
  | some (_, _, caps) =>
    some ⟨sender, capGet caps 2, '$' :: capGet caps 1,
          orDefault (pyStrip (capGet caps 3)) (toL "bet")⟩
  | none => none

/-- Last-resort scan (bot.py:1050-1098): collect mentions and numeric
tokens, drop the bot's mention and the sub-1 tokens, sort descending by
value, take the head as the amount, and rebuild the description. -/
def lastResort (t botId sender : List Char) : Option ParsedBet :=
  let mentions := (reFindall mentionPat t).filter (fun m => m ≠ botId)
  let dollarAmounts := reFindall dollarPat t
  let standaloneAmounts := reFindall standalonePat t
  let amounts := sortDesc ((dollarAmounts ++ standaloneAmounts).filter (fun a => 1 ≤ amtVal a))
  match amounts, mentions with
  | betAmt :: _, m1 :: mrest =>
    let desc0 := mentions.foldl (fun d m => removeAll (mentionLit m) d) t
    let desc1 := pyStrip (collapseWs (removeFirstAmt betAmt desc0))
    let desc := pyStrip (stripLeadBoiler desc1)
    match mrest with
    | m2 :: _ => some ⟨m1, m2, '$' :: betAmt, orDefault desc (toL "bet")⟩
    | [] => some ⟨sender, m1, '$' :: betAmt, orDefault desc (toL "bet")⟩
  | _, _ => none

/-- `parse_bet_message` (bot.py:990-1098): normalize, then the ordered rule
cascade — the first rule that matches wins, later rules are not tried — and
finally the last-resort scan. -/
def parse_bet_message (text botId sender : List Char) : Option ParsedBet :=
  let t := normalize_text botId text
  match tryRule1 t with
  | some r => some r
  | none =>
    match tryRule2 t with
    | some r => some r
    | none =>
      match tryRule3 t sender with
      | some r => some r
      | none =>
        match tryRule4 t sender with
        | some r => some r
        | none =>
          match tryRule5 t sender with
          | some r => some r
          | none => lastResort t botId sender

/-!
## ParlayLegParser: `parse_parlay_text`

Two variants exist in the repository: bot.py:422-460 (newline split, `#`
comments, a four-pattern odds tail, legs kept whenever the pick is
non-empty) and telegram_bot.py:129-200 (comma/semicolon fallback split,
prefix stripping, noise-word skipping, a five-pattern odds tail, and legs
kept only when the cleaned pick has length ≥ 2).
-/

/-- One parlay leg: pick text and decimal-multiplier odds. -/
structure Leg where
  pick : List Char
  odds : ℚ
deriving DecidableEq, Repr

/-- Try the ordered odds-tail patterns on a line: the first `re.search`
match sets the odds from group 1 and cuts the pick at `match.start()`
(both variants, bot.py:437-453, telegram_bot.py:173-187). -/
def extractOdds (pats : List Re) (line : List Char) : ℚ × List Char :=
  match pats with
  | [] => (1, line)
  | p :: rest =>
    match reSearchL p line with
    | some (start, _, caps) => (parse_oddsL (capGet caps 1), pyStrip (line.take start))
    | none => extractOdds rest line

/-- bot.py odds patterns (bot.py:440-445): `([+-]\d+)\s*$`,
`@\s*([+-]?\d+\.?\d*)\s*$`, `\(([+-]?\d+\.?\d*)\)\s*$`, `\s(\d+\.\d+)\s*$`. -/
def botOddsPats : List Re :=
  [Re.seq (Re.grp 1 (rseqs [Re.cls (fun c => c = '+' || c = '-'), rplus rD]))
     (Re.seq (Re.star rS) Re.eos),
   rseqs [rlit "@", Re.star rS,
          Re.grp 1 (rseqs [Re.opt (Re.cls (fun c => c = '+' || c = '-')),
                           rplus rD, Re.opt (rlit "."), Re.star rD]),
          Re.star rS, Re.eos],
   rseqs [rlit "(",
          Re.grp 1 (rseqs [Re.opt (Re.cls (fun c => c = '+' || c = '-')),
                           rplus rD, Re.opt (rlit "."), Re.star rD]),
          rlit ")", Re.star rS, Re.eos],
   rseqs [rS, Re.grp 1 (rseqs [rplus rD, rlit ".", rplus rD]),
          Re.star rS, Re.eos]]

/-- Per-line processing of bot.py's `parse_parlay_text` (bot.py:426-458):
strip, skip blanks and `#` comments, extract trailing odds, keep the leg
whenever the remaining pick is non-empty. -/
def botProcessLine (line0 : List Char) : Option Leg :=
  let line := pyStrip line0
  if line = [] then none
  else if line.head? = some '#' then none
  else
    let (odds, pick) := extractOdds botOddsPats line
    if pick ≠ [] then some ⟨pick, odds⟩ else none

/-- `parse_parlay_text` (bot.py:422-460). -/
def parse_parlay_text (text : List Char) : List Leg :=
  ((pyStrip text).splitOn '\n').filterMap botProcessLine

/-- telegram_bot.py odds patterns (telegram_bot.py:174-180):
`([+-]\d{3})\s*$`, `([+-]\d+)\s*$`, `@\s*([+-]?\d+\.?\d*)\s*$`,
`\(([+-]?\d+\.?\d*)\)\s*$`, `\s(\d+\.\d{2})\s*$`. -/
def tgOddsPats : List Re :=
  [Re.seq (Re.grp 1 (rseqs [Re.cls (fun c => c = '+' || c = '-'), rD, rD, rD]))
     (Re.seq (Re.star rS) Re.eos),
   Re.seq (Re.grp 1 (rseqs [Re.cls (fun c => c = '+' || c = '-'), rplus rD]))
     (Re.seq (Re.star rS) Re.eos),
   rseqs [rlit "@", Re.star rS,
          Re.grp 1 (rseqs [Re.opt (Re.cls (fun c => c = '+' || c = '-')),
                           rplus rD, Re.opt (rlit "."), Re.star rD]),
          Re.star rS, Re.eos],
   rseqs [rlit "(",
          Re.grp 1 (rseqs [Re.opt (Re.cls (fun c => c = '+' || c = '-')),
                           rplus rD, Re.opt (rlit "."), Re.star rD]),
          rlit ")", Re.star rS, Re.eos],
   rseqs [rS, Re.grp 1 (rseqs [rplus rD, rlit ".", rD, rD]),
          Re.star rS, Re.eos]]

/-- `^[\d]+[.\)]\s*` (telegram_bot.py:157). -/
def tgPre1 : Re :=
  rseqs [rplus rD, Re.cls (fun c => c = '.' || c = ')'), Re.star rS]

/-- `^[-•*]\s*` (telegram_bot.py:158). -/
def tgPre2 : Re :=
  rseqs [Re.cls (fun c => c = '-' || c = '•' || c = '*'), Re.star rS]

/-- `^leg\s*\d*:?\s*` with IGNORECASE (telegram_bot.py:159). -/
def tgPre3 : Re :=
  rseqs [rlitCI "leg", Re.star rS, Re.star rD, Re.opt (rlit ":"), Re.star rS]

/-- The noise words skipped per line (telegram_bot.py:166-168). -/
def tgSkipWords : List (List Char) :=
  [toL "parlay", toL "total", toL "wager", toL "stake", toL "bet", toL "slip"]

/-- `re.sub(r'[,;:]+$', '', pick)` (telegram_bot.py:193): drop the trailing
run of `,`/`;`/`:`. -/
def dropTrailSep (s : List Char) : List Char :=
  (s.reverse.dropWhile (fun c => c = ',' || c = ';' || c = ':')).reverse

/-- Line cleaning of telegram_bot.py's `parse_parlay_text`
(telegram_bot.py:147-168): strip; skip blanks, `/` commands and `#`
comments; strip ordinal/bullet/`Leg n:` prefixes; re-strip; skip blanks and
noise words.  `none` means the line is skipped. -/
def tgCleanLine (line0 : List Char) : Option (List Char) :=
  let l1 := pyStrip line0
  if l1 = [] then none
  else if l1.head? = some '/' ∨ l1.head? = some '#' then none
  else
    let l2 := subAnchored tgPre3 (subAnchored tgPre2 (subAnchored tgPre1 l1))
    let line := pyStrip l2
    if line = [] then none
    else if (line.map Char.toLower) ∈ tgSkipWords then none
    else some line

/-- Leg construction of telegram_bot.py's `parse_parlay_text`
(telegram_bot.py:171-198): extract trailing odds, strip the pick and its
trailing punctuation, and keep the leg only when the pick is non-empty and
at least 2 characters long. -/
def tgLegOf (line : List Char) : Option Leg :=
  let op := extractOdds tgOddsPats line
  let pick := pyStrip (dropTrailSep (pyStrip op.2))
  if pick ≠ [] ∧ 2 ≤ pick.length then some ⟨pick, op.1⟩ else none

/-- Per-line processing of telegram_bot.py's `parse_parlay_text`
(telegram_bot.py:147-198): the cleaning stage followed by the leg stage. -/
def tgProcessLine (line0 : List Char) : Option Leg :=
  (tgCleanLine line0).bind tgLegOf

/-- `parse_parlay_text` (telegram_bot.py:129-200): newline split with
comma/semicolon fallback for one-line input, then the per-line processing. -/
def parse_parlay_text_tg (text : List Char) : List Leg :=
  let t := pyStrip text
  let lines0 := (t.splitOn '\n')
  let lines :=
    if lines0.length = 1 then
      if ',' ∈ t then (t.splitOn ',').map pyStrip
      else if ';' ∈ t then (t.splitOn ';').map pyStrip
      else lines0
    else lines0
  lines.filterMap tgProcessLine


/-!
## Theorems

### C1 / C9: settling is a conditional update
-/

/-- The per-row update performed by `settle_bet`'s SQL UPDATE. -/
def settleUpd (betId : Nat) (winnerId now : String) (b : BetRow) : BetRow :=
  if b.id = betId ∧ b.status = "open" then
    { b with status := "settled", winner_id := some winnerId, resolved_at := some now }
  else b

theorem settle_bet_fst (db : List BetRow) (betId : Nat) (w nm now : String) :
    (settle_bet db betId w nm now).1 = db.map (settleUpd betId w now) := rfl

theorem settleUpd_absorb (betId : Nat) (w1 n1 w2 n2 : String) (b : BetRow) :
    settleUpd betId w2 n2 (settleUpd betId w1 n1 b) = settleUpd betId w1 n1 b := by
  unfold settleUpd
  by_cases h : b.id = betId ∧ b.status = "open"
  · simp [h]
  · simp [h]

/-- C1 — Settle is a compare-and-set on status: when some row with the given
id is `'open'`, the first `settle_bet` reports success and rewrites each such
row to `'settled'` with the given winner and resolution timestamp; a second
`settle_bet` on the same bet id reports failure and leaves the table
unchanged.  So of two settle attempts exactly one succeeds, and `resolved_at`
is set exactly once (to the first call's timestamp). -/
theorem settle_bet_cas (db : List BetRow) (betId : Nat) (w nm1 nm2 t1 t2 : String)
    (h : ∃ b ∈ db, b.id = betId ∧ b.status = "open") :
    (settle_bet db betId w nm1 t1).2 = true ∧
    (∀ (i : Nat) (b : BetRow), db[i]? = some b → b.id = betId → b.status = "open" →
      ((settle_bet db betId w nm1 t1).1)[i]? =
        some { b with status := "settled", winner_id := some w, resolved_at := some t1 }) ∧
    (settle_bet (settle_bet db betId w nm1 t1).1 betId w nm2 t2).2 = false ∧
    (settle_bet (settle_bet db betId w nm1 t1).1 betId w nm2 t2).1 =
      (settle_bet db betId w nm1 t1).1 := by
  obtain ⟨b0, hb0, hid0, hst0⟩ := h
  refine ⟨?_, ?_, ?_, ?_⟩
  · simp only [settle_bet, decide_eq_true_eq, List.countP_pos_iff]
    exact ⟨b0, hb0, by simp [hid0, hst0]⟩
  · intro i b hget hid hst
    rw [settle_bet_fst, List.getElem?_map, hget]
    simp [settleUpd, hid, hst]
  · have hall : ∀ a ∈ (settle_bet db betId w nm1 t1).1,
        ¬(a.id = betId ∧ a.status = "open") := by
      rw [settle_bet_fst]
      intro a ha
      obtain ⟨b, _, rfl⟩ := List.mem_map.mp ha
      unfold settleUpd
      by_cases hc : b.id = betId ∧ b.status = "open"
      · simp [hc]
      · simp only [if_neg hc]
        exact hc
    simp only [settle_bet]
    rw [decide_eq_false_iff_not, List.countP_pos_iff]
    rintro ⟨a, ha, hpa⟩
    exact hall a ha (by simpa using hpa)
  · rw [settle_bet_fst, settle_bet_fst, List.map_map]
    rw [show (settleUpd betId w t2 ∘ settleUpd betId w t1) = settleUpd betId w t1 from
      funext fun b => settleUpd_absorb betId w t1 w t2 b]

/-- A one-row table with an open bet, used to instantiate the settle theorems. -/
def betDb0 : List BetRow :=
  [{ id := 1, channel_id := "c", person1_id := "u1", person1_name := "Alice",
     person2_id := "u2", person2_name := "Bob", amount := "$20",
     description := "dinner", status := "open", winner_id := none,
     created_at := "t0", resolved_at := none, created_by := "u1" }]

/-- Witness for C1: on a concrete one-row open table, the first settle
succeeds, the second fails and changes nothing. -/
theorem settle_bet_cas_witness :
    (settle_bet betDb0 1 "u2" "Bob" "T1").2 = true ∧
    (settle_bet (settle_bet betDb0 1 "u2" "Bob" "T1").1 1 "u2" "Bob" "T2").2 = false ∧
    (settle_bet (settle_bet betDb0 1 "u2" "Bob" "T1").1 1 "u2" "Bob" "T2").1 =
      (settle_bet betDb0 1 "u2" "Bob" "T1").1 := by
  have h := settle_bet_cas betDb0 1 "u2" "Bob" "Bob" "T1" "T2" (by decide)
  exact ⟨h.1, h.2.2.1, h.2.2.2⟩

/-- The fields of a bet row other than status, winner and resolution time. -/
def frameFields (b : BetRow) :=
  (b.channel_id, b.person1_id, b.person1_name, b.person2_id, b.person2_name,
   b.amount, b.description, b.created_at, b.created_by)

/-- C9 — Settle frame condition: `settle_bet` can change only `status`,
`winner_id` and `resolved_at`; `channel_id`, both participants' ids and
names, `amount`, `description`, `created_at` and `created_by` of every row
are unchanged, whether or not the conditional update succeeds. -/
theorem settle_bet_frame (db : List BetRow) (betId : Nat) (w nm now : String) :
    ((settle_bet db betId w nm now).1).map frameFields = db.map frameFields := by
  rw [settle_bet_fst, List.map_map]
  have : (frameFields ∘ settleUpd betId w now) = frameFields := by
    funext b
    unfold settleUpd frameFields
    by_cases h : b.id = betId ∧ b.status = "open" <;> simp [h]
  rw [this]

/-!
### C2: balance zero-sum
-/

theorem sumBal_cons (e : Option String × String × ℚ) (m : BalMap) :
    sumBal (e :: m) = e.2.2 + sumBal m := by
  simp [sumBal]

theorem sumBal_updBal (m : BalMap) (k : Option String) (nm : String) (δ : ℚ) :
    sumBal (updBal m k nm δ) = sumBal m + δ := by
  induction m with
  | nil => simp [updBal, sumBal]
  | cons e rest ih =>
    unfold updBal
    by_cases h : e.1 = k
    · rw [if_pos h, sumBal_cons, sumBal_cons]
      ring
    · rw [if_neg h, sumBal_cons, sumBal_cons, ih]
      ring

theorem sumBal_balStep (acc : BalMap) (b : BetRow) :
    sumBal (balStep acc b) = sumBal acc := by
  unfold balStep
  rw [sumBal_updBal, sumBal_updBal]
  ring

theorem sumBal_foldl : ∀ (rows : List BetRow) (acc : BalMap),
    sumBal (rows.foldl balStep acc) = sumBal acc := by
  intro rows
  induction rows with
  | nil => intro acc; rfl
  | cons b rest ih =>
    intro acc
    rw [List.foldl_cons, ih, sumBal_balStep]

/-- C2 — Balance zero-sum: for any bets table whose settled rows each name
one of their two participants as winner, the per-user balances produced by
`get_balances` (winner `+amount`, loser `-amount`, unparseable amounts
contributing 0) sum to exactly zero. -/
theorem get_balances_zero_sum (db : List BetRow)
    (hw : ∀ b ∈ db, b.status = "settled" →
      b.winner_id = some b.person1_id ∨ b.winner_id = some b.person2_id) :
    sumBal (get_balances db) = 0 := by
  unfold get_balances
  rw [sumBal_foldl]
  rfl

/-- A two-row settled table used to instantiate the ledger theorems. -/
def betDb1 : List BetRow :=
  [{ id := 1, channel_id := "c", person1_id := "u1", person1_name := "Alice",
     person2_id := "u2", person2_name := "Bob", amount := "$20",
     description := "dinner", status := "settled", winner_id := some "u2",
     created_at := "t0", resolved_at := some "t1", created_by := "u1" },
   { id := 2, channel_id := "c", person1_id := "u1", person1_name := "Alice",
     person2_id := "u3", person2_name := "Carol", amount := "$7.50",
     description := "game", status := "settled", winner_id := some "u1",
     created_at := "t2", resolved_at := some "t3", created_by := "u3" }]

/-- Witness for C2 on a concrete settled table. -/
theorem get_balances_zero_sum_witness : sumBal (get_balances betDb1) = 0 :=
  get_balances_zero_sum betDb1 (by decide)

/-!
### C3: pairwise debt symmetry
-/

theorem lookupDebt_cons (e : String × String × ℚ) (m : DebtMap) (v : String) :
    lookupDebt (e :: m) v = if e.1 = v then e.2.2 else lookupDebt m v := by
  unfold lookupDebt
  by_cases h : e.1 = v
  · have hb : (e.1 == v) = true := beq_iff_eq.mpr h
    simp [List.find?, hb, h]
  · have hb : (e.1 == v) = false := beq_eq_false_iff_ne.mpr h
    simp [List.find?, hb, h]

theorem lookupDebt_updDebt (m : DebtMap) (k nm : String) (δ : ℚ) (v : String) :
    lookupDebt (updDebt m k nm δ) v = lookupDebt m v + (if k = v then δ else 0) := by
  induction m with
  | nil =>
    unfold updDebt
    rw [lookupDebt_cons]
    by_cases h : k = v <;> simp [h, lookupDebt]
  | cons e rest ih =>
    unfold updDebt
    by_cases h : e.1 = k
    · rw [if_pos h, lookupDebt_cons, lookupDebt_cons]
      by_cases hv : e.1 = v
      · rw [if_pos hv, if_pos hv, if_pos (h.symm.trans hv)]
      · rw [if_neg hv, if_neg hv, if_neg (fun hkv : k = v => hv (h.trans hkv)), add_zero]
    · rw [if_neg h, lookupDebt_cons, lookupDebt_cons, ih]
      by_cases hv : e.1 = v
      · rw [if_pos hv, if_pos hv, if_neg (fun hkv : k = v => h (by rw [hv, hkv])), add_zero]
      · rw [if_neg hv, if_neg hv]

/-- The net contribution of one table row to `debts[u][v]` as computed by
`get_user_debts u`. -/
def debtContrib (u v : String) (b : BetRow) : ℚ :=
  if b.status = "settled" ∧ (b.person1_id = u ∨ b.person2_id = u) then
    if (if b.person1_id = u then b.person2_id else b.person1_id) = v then
      if b.winner_id = some u then parseAmount b.amount else -parseAmount b.amount
    else 0
  else 0

theorem debts_fold_aux (u v : String) : ∀ (rows : List BetRow) (acc : DebtMap),
    lookupDebt
      ((rows.filter fun b =>
          b.status == "settled" && (b.person1_id == u || b.person2_id == u)).foldl
        (debtStep u) acc) v
      = lookupDebt acc v + ((rows.map (debtContrib u v)).sum) := by
  intro rows
  induction rows with
  | nil => intro acc; simp
  | cons b rest ih =>
    intro acc
    by_cases hp : (b.status == "settled" && (b.person1_id == u || b.person2_id == u)) = true
    · rw [List.filter_cons, if_pos hp, List.foldl_cons, ih]
      have hrel : b.status = "settled" ∧ (b.person1_id = u ∨ b.person2_id = u) := by
        simpa using hp
      unfold debtStep
      rw [lookupDebt_updDebt]
      simp only [List.map_cons, List.sum_cons]
      unfold debtContrib
      rw [if_pos hrel]
      by_cases h1 : b.person1_id = u <;> simp only [h1, ite_true, ite_false, if_pos, if_neg] <;> ring
    · rw [List.filter_cons, if_neg hp, ih]
      have hrel : ¬(b.status = "settled" ∧ (b.person1_id = u ∨ b.person2_id = u)) := by
        simpa using hp
      simp only [List.map_cons, List.sum_cons]
      unfold debtContrib
      rw [if_neg hrel]
      ring

theorem debts_as_sum (u v : String) (db : List BetRow) :
    debtTo db u v = ((db.map (debtContrib u v)).sum) := by
  unfold debtTo get_user_debts
  rw [debts_fold_aux]
  simp [lookupDebt]

theorem debtContrib_antisymm (u v : String) (huv : u ≠ v) (b : BetRow)
    (hw : b.status = "settled" →
      b.winner_id = some b.person1_id ∨ b.winner_id = some b.person2_id) :
    debtContrib u v b = -debtContrib v u b := by
  unfold debtContrib
  by_cases hs : b.status = "settled"
  · rcases hw hs with hwin | hwin <;>
      by_cases h1u : b.person1_id = u <;> by_cases h2u : b.person2_id = u <;>
      by_cases h1v : b.person1_id = v <;> by_cases h2v : b.person2_id = v <;>
      simp_all
  · simp [hs]

/-- C3 — Debt symmetry: for distinct users `u` and `v` and any table whose
settled rows each name one of their two participants as winner, the pairwise
net debt computed by `get_user_debts` from `u`'s perspective toward `v` is
the exact negation of the one computed from `v`'s perspective toward `u`. -/
theorem get_user_debts_antisymm (db : List BetRow) (u v : String) (huv : u ≠ v)
    (hw : ∀ b ∈ db, b.status = "settled" →
      b.winner_id = some b.person1_id ∨ b.winner_id = some b.person2_id) :
    debtTo db u v = -debtTo db v u := by
  rw [debts_as_sum, debts_as_sum]
  induction db with
  | nil => simp
  | cons b rest ih =>
    simp only [List.map_cons, List.sum_cons]
    rw [debtContrib_antisymm u v huv b (hw b (List.mem_cons_self b rest)),
        ih (fun x hx => hw x (List.mem_cons_of_mem b hx))]
    ring

/-- Witness for C3 on a concrete settled table. -/
theorem get_user_debts_antisymm_witness :
    debtTo betDb1 "u1" "u2" = -debtTo betDb1 "u2" "u1" :=
  get_user_debts_antisymm betDb1 "u1" "u2" (by decide) (by decide)

/-!
### C4 / C10: odds conversion
-/

section OddsTheorems
attribute [local semireducible] Rat.add Rat.mul Rat.inv Rat.sub

/-- C4 — Odds conversion values: `parse_odds` returns 2.5 on `"+150"`, a
value within 1e-3 of 1.6667 on `"-150"`, 2.5 on `"2.5"` and the neutral 1.0
on `"garbage"`; in general a token whose sign-stripped form parses as a
positive integer `p` maps to `1 + p/100`, one parsing as a negative integer
`n` maps to `1 + 100/|n|`, and a token parsing neither as a decimal (in the
first branch) nor as an integer maps to 1.0 without failing. -/
theorem parse_odds_spec :
    parse_odds "+150" = 5 / 2 ∧
    |parse_odds "-150" - 16667 / 10000| < 1 / 1000 ∧
    parse_odds "2.5" = 5 / 2 ∧
    parse_odds "garbage" = 1 ∧
    (∀ (s : String) (p : Int),
      oddsFloatBranch (pyStrip s.toList) = none →
      parseInt? ((pyStrip s.toList).filter (fun c => c ≠ '+')) = some p → 0 < p →
      parse_odds s = 1 + (p : ℚ) / 100) ∧
    (∀ (s : String) (n : Int),
      oddsFloatBranch (pyStrip s.toList) = none →
      parseInt? ((pyStrip s.toList).filter (fun c => c ≠ '+')) = some n → n < 0 →
      parse_odds s = 1 + 100 / (-(n : ℚ))) ∧
    (∀ (s : String),
      oddsFloatBranch (pyStrip s.toList) = none →
      parseInt? ((pyStrip s.toList).filter (fun c => c ≠ '+')) = none →
      parse_odds s = 1) := by
  refine ⟨by decide, by decide, by decide, by decide, ?_, ?_, ?_⟩
  · intro s p hf hi hp
    simp only [parse_odds, parse_oddsL, hf, hi]
    simp [hp]
  · intro s n hf hi hn
    simp only [parse_odds, parse_oddsL, hf, hi]
    rw [if_neg (by omega), if_neg (by omega)]
    push_cast
    ring
  · intro s hf hi
    simp only [parse_odds, parse_oddsL, hf, hi]

/-- Witness for C4: the general positive-odds clause instantiated at
`"+150"`. -/
theorem parse_odds_spec_witness : parse_odds "+150" = 1 + (150 : ℚ) / 100 :=
  parse_odds_spec.2.2.2.2.1 "+150" 150 (by decide) (by decide) (by decide)

/-- C10 — Zero-odds totality: tokens parsing as the integer zero, for which
`1 + 100/abs(odds_int)` divides by zero (the swallowed `ZeroDivisionError`),
yield the neutral multiplier 1.0 rather than an error. -/
theorem parse_odds_zero :
    parseInt? (toL "0") = some 0 ∧ parse_odds "0" = 1 ∧
    parse_odds "+0" = 1 ∧ parse_odds "-0" = 1 := by
  refine ⟨by decide, by decide, by decide, by decide⟩

end OddsTheorems

/-!
### C5 / C6: the BetParser cascade
-/

section BetParserTheorems
attribute [local semireducible] Rat.add Rat.mul Rat.inv Rat.sub

/-- C5 — BetParser rule precedence: on the normalized message
`"<@A> vs <@B> $50 finals"` the first cascade rule matches (participants
`A`,`B`, amount `"$50"`, description `"finals"`), and `parse_bet_message`
returns exactly that rule-1 result, so no later rule and not the last-resort
scan is ever consulted (the cascade stops at the first match by
construction). -/
theorem bet_parser_rule1_precedence :
    tryRule1 (toL "<@A> vs <@B> $50 finals") =
      some ⟨toL "A", toL "B", toL "$50", toL "finals"⟩ ∧
    parse_bet_message (toL "<@A> vs <@B> $50 finals") (toL "BOT") (toL "SND") =
      some ⟨toL "A", toL "B", toL "$50", toL "finals"⟩ :=
  ⟨by decide, by decide⟩

theorem le_head_insertDesc (l : List (List Char)) (x : List Char) :
    amtVal x ≤ amtVal ((insertDesc x l).headD []) := by
  cases l with
  | nil => simp [insertDesc]
  | cons y ys =>
    unfold insertDesc
    by_cases h : amtVal x < amtVal y
    · rw [if_pos h]
      simpa using le_of_lt h
    · rw [if_neg h]
      simp

theorem head_le_insertDesc (l : List (List Char)) (x y : List Char)
    (hl : l ≠ []) (h : amtVal y ≤ amtVal (l.headD [])) :
    amtVal y ≤ amtVal ((insertDesc x l).headD []) := by
  cases l with
  | nil => exact absurd rfl hl
  | cons a t =>
    unfold insertDesc
    by_cases hx : amtVal x < amtVal a
    · rw [if_pos hx]
      simpa using h
    · rw [if_neg hx]
      simp only [List.headD_cons] at h ⊢
      exact le_trans h (le_of_not_lt hx)

theorem sortDesc_ne_nil (l : List (List Char)) (h : l ≠ []) : sortDesc l ≠ [] := by
  cases l with
  | nil => exact absurd rfl h
  | cons x xs =>
    show insertDesc x (sortDesc xs) ≠ []
    cases sortDesc xs with
    | nil => simp [insertDesc]
    | cons a t =>
      unfold insertDesc
      by_cases hx : amtVal x < amtVal a
      · rw [if_pos hx]; simp
      · rw [if_neg hx]; simp

/-- C6 (counterexample) — the claim's general priority of dollar-prefixed
tokens over bare tokens fails: in `"<@A> <@B> bet $20 on game 77"` no
cascade rule matches, the scan collects dollar token `"20"` and bare token
`"77"`, and the chosen amount is `"$77"`, not `"$20"`: the bare token wins
because the choice sorts by numeric value. -/
theorem bet_fallback_counterexample :
    tryRule1 (toL "<@A> <@B> bet $20 on game 77") = none ∧
    tryRule2 (toL "<@A> <@B> bet $20 on game 77") = none ∧
    tryRule3 (toL "<@A> <@B> bet $20 on game 77") (toL "SND") = none ∧
    tryRule4 (toL "<@A> <@B> bet $20 on game 77") (toL "SND") = none ∧
    tryRule5 (toL "<@A> <@B> bet $20 on game 77") (toL "SND") = none ∧
    reFindall dollarPat (toL "<@A> <@B> bet $20 on game 77") = [toL "20"] ∧
    reFindall standalonePat (toL "<@A> <@B> bet $20 on game 77") = [toL "77"] ∧
    (parse_bet_message (toL "<@A> <@B> bet $20 on game 77") (toL "BOT") (toL "SND")).map
      ParsedBet.amount = some (toL "$77") :=
  ⟨by decide, by decide, by decide, by decide, by decide, by decide, by decide, by decide⟩

/-- C6 (amended) — In the last-resort scan the amount is the collected
numeric token that is largest by value (`sorted(..., key=float,
reverse=True)` head), with dollar-prefixed tokens only collected first; for
the claim's particular tokens `"$20"` and `"7"`, in either order of
appearance, the parsed amount is `"$20"`, because a bare token needs at
least two digits to be collected at all. -/
theorem bet_fallback_amended :
    (∀ (l : List (List Char)) (x : List Char), x ∈ l →
      amtVal x ≤ amtVal ((sortDesc l).headD [])) ∧
    (tryRule1 (toL "<@A> <@B> bet $20 on game 7") = none ∧
     tryRule2 (toL "<@A> <@B> bet $20 on game 7") = none ∧
     tryRule3 (toL "<@A> <@B> bet $20 on game 7") (toL "SND") = none ∧
     tryRule4 (toL "<@A> <@B> bet $20 on game 7") (toL "SND") = none ∧
     tryRule5 (toL "<@A> <@B> bet $20 on game 7") (toL "SND") = none ∧
     (parse_bet_message (toL "<@A> <@B> bet $20 on game 7") (toL "BOT") (toL "SND")).map
       ParsedBet.amount = some (toL "$20")) ∧
    (tryRule1 (toL "<@A> <@B> bet 7 game for $20") = none ∧
     tryRule2 (toL "<@A> <@B> bet 7 game for $20") = none ∧
     tryRule3 (toL "<@A> <@B> bet 7 game for $20") (toL "SND") = none ∧
     tryRule4 (toL "<@A> <@B> bet 7 game for $20") (toL "SND") = none ∧
     tryRule5 (toL "<@A> <@B> bet 7 game for $20") (toL "SND") = none ∧
     (parse_bet_message (toL "<@A> <@B> bet 7 game for $20") (toL "BOT") (toL "SND")).map
       ParsedBet.amount = some (toL "$20")) := by
  refine ⟨?_, by decide, by decide⟩
  intro l
  induction l with
  | nil => intro x hx; simp at hx
  | cons a t ih =>
    intro x hx
    rcases List.mem_cons.mp hx with rfl | hx
    · show amtVal x ≤ amtVal ((insertDesc x (sortDesc t)).headD [])
      exact le_head_insertDesc (sortDesc t) x
    · have ht : t ≠ [] := List.ne_nil_of_mem hx
      show amtVal x ≤ amtVal ((insertDesc a (sortDesc t)).headD [])
      exact head_le_insertDesc (sortDesc t) a x (sortDesc_ne_nil t ht) (ih x hx)

/-- Witness for C6 (amended): the largest-token clause instantiated on the
concrete collected tokens of the counterexample message. -/
theorem bet_fallback_amended_witness :
    amtVal (toL "20") ≤ amtVal ((sortDesc [toL "20", toL "77"]).headD []) :=
  bet_fallback_amended.1 [toL "20", toL "77"] (toL "20") (by decide)

end BetParserTheorems

/-!
### C7: parlay leg minimum pick length
-/

theorem tgLegOf_pick_long (line : List Char) (leg : Leg)
    (h : tgLegOf line = some leg) : leg.pick ≠ [] ∧ 2 ≤ leg.pick.length := by
  simp only [tgLegOf] at h
  split_ifs at h with hg
  injection h with heq
  subst heq
  exact hg

theorem tgProcessLine_pick_long (l : List Char) (leg : Leg)
    (h : tgProcessLine l = some leg) : leg.pick ≠ [] ∧ 2 ≤ leg.pick.length := by
  unfold tgProcessLine at h
  cases hc : tgCleanLine l with
  | none => rw [hc] at h; exact absurd h (fun hx => Option.noConfusion hx)
  | some line => rw [hc] at h; exact tgLegOf_pick_long line leg h

section ParlayTheorems
attribute [local semireducible] Rat.add Rat.mul Rat.inv Rat.sub

/-- C7 (counterexample) — bot.py's `parse_parlay_text` keeps a leg whose
pick is the single character `"X"` (only emptiness is checked there), so the
claimed 2-character minimum does not hold for it. -/
theorem parlay_min_pick_counterexample :
    parse_parlay_text (toL "X +150") = [⟨toL "X", 5 / 2⟩] ∧
    ¬(∀ leg ∈ parse_parlay_text (toL "X +150"), 2 ≤ leg.pick.length) :=
  ⟨by decide, by decide⟩

/-- C7 (amended) — telegram_bot.py's `parse_parlay_text` discards any
candidate line whose pick, after odds-stripping and trailing-punctuation
removal, is empty or shorter than 2 characters: every leg it returns has a
non-empty pick of length at least 2.  bot.py's variant only discards empty
picks (see the counterexample). -/
theorem parlay_min_pick_amended (t : List Char) (leg : Leg)
    (h : leg ∈ parse_parlay_text_tg t) : leg.pick ≠ [] ∧ 2 ≤ leg.pick.length := by
  unfold parse_parlay_text_tg at h
  obtain ⟨l, _, hl⟩ := List.mem_filterMap.mp h
  exact tgProcessLine_pick_long l leg hl

/-- Witness for C7 (amended) on a concrete one-leg parlay text. -/
theorem parlay_min_pick_amended_witness :
    (⟨toL "Lakers", 5 / 2⟩ : Leg) ∈ parse_parlay_text_tg (toL "Lakers +150") ∧
    (toL "Lakers" ≠ [] ∧ 2 ≤ (toL "Lakers").length) :=
  ⟨by decide, parlay_min_pick_amended (toL "Lakers +150") ⟨toL "Lakers", 5 / 2⟩ (by decide)⟩

end ParlayTheorems

/-!
### C8: text normalization idempotence
-/

theorem removeAllAux_of_not_occurs (pat : List Char) :
    ∀ (fuel : Nat) (s : List Char), occursIn pat s = false → removeAllAux pat fuel s = s := by
  intro fuel
  induction fuel with
  | zero => intro s _; rfl
  | succ f ih =>
    intro s h
    cases s with
    | nil => rfl
    | cons c rest =>
      unfold occursIn at h
      rw [Bool.or_eq_false_iff] at h
      unfold removeAllAux
      rw [if_neg (fun hc => by rw [hc.2] at h; exact Bool.noConfusion h.1)]
      rw [ih rest h.2]

theorem removeAll_of_not_occurs (pat s : List Char) (h : occursIn pat s = false) :
    removeAll pat s = s :=
  removeAllAux_of_not_occurs pat s.length s h

theorem dropWhile_idem (p : Char → Bool) (l : List Char) :
    (l.dropWhile p).dropWhile p = l.dropWhile p := by
  induction l with
  | nil => rfl
  | cons a t ih =>
    by_cases h : p a
    · simp [List.dropWhile_cons, h, ih]
    · simp [List.dropWhile_cons, h]

theorem trimRight_idem (s : List Char) : trimRight (trimRight s) = trimRight s := by
  unfold trimRight
  rw [List.reverse_reverse, dropWhile_idem]

theorem dropWhile_of_head_false (p : Char → Bool) (s : List Char) (a : Char)
    (hh : s.head? = some a) (ha : p a = false) : s.dropWhile p = s := by
  cases s with
  | nil => rfl
  | cons c t =>
    rw [List.head?_cons, Option.some.injEq] at hh
    subst hh
    simp [List.dropWhile_cons, ha]

theorem trimLeft_trimRight (u : List Char) (hu : trimLeft u = u) :
    trimLeft (trimRight u) = trimRight u := by
  cases u with
  | nil => rfl
  | cons a t =>
    have ha : isSpaceC a = false := by
      unfold trimLeft at hu
      have := List.dropWhile_eq_self_iff.mp hu (by simp)
      simpa using this
    cases hw : (a :: t).reverse.dropWhile isSpaceC with
    | nil =>
      unfold trimRight
      rw [hw]
      rfl
    | cons b w =>
      have hsuffix : (b :: w) <:+ (a :: t).reverse := hw ▸ List.dropWhile_suffix isSpaceC
      have hlast : (b :: w).getLast? = some a := by
        obtain ⟨pre, hpre⟩ := hsuffix
        have : ((a :: t).reverse).getLast? = some a := by
          rw [List.getLast?_reverse]
          rfl
        rw [← hpre, List.getLast?_append_of_ne_nil pre (by simp)] at this
        exact this
      have hhead : ((b :: w).reverse).head? = some a := by
        rw [List.head?_reverse]
        exact hlast
      unfold trimRight
      rw [hw]
      exact dropWhile_of_head_false isSpaceC ((b :: w).reverse) a hhead ha

theorem pyStrip_idem (s : List Char) : pyStrip (pyStrip s) = pyStrip s := by
  unfold pyStrip
  rw [trimLeft_trimRight (trimLeft s) (dropWhile_idem isSpaceC s), trimRight_idem]

/-- C8 (counterexample) — normalization (remove the bot's own mention, then
trim) is not idempotent for every input: with bot id `"B"`, removing all
`<@B>` occurrences from `"<<@B>@B>"` creates a new `<@B>`, so a second pass
changes the result again. -/
theorem normalize_text_counterexample :
    normalize_text (toL "B") (toL "<<@B>@B>") = toL "<@B>" ∧
    normalize_text (toL "B") (normalize_text (toL "B") (toL "<<@B>@B>")) = [] ∧
    normalize_text (toL "B") (normalize_text (toL "B") (toL "<<@B>@B>")) ≠
      normalize_text (toL "B") (toL "<<@B>@B>") :=
  ⟨by decide, by decide, by decide⟩

/-- C8 (amended) — the normalization step is idempotent on every text whose
normalized form contains no further occurrence of the bot's mention (in
particular whenever removing mentions cannot create a new one; the
counterexample shows idempotence fails without this proviso). -/
theorem normalize_text_idem (botId t : List Char)
    (h : occursIn (mentionLit botId) (normalize_text botId t) = false) :
    normalize_text botId (normalize_text botId t) = normalize_text botId t := by
  unfold normalize_text at h ⊢
  rw [removeAll_of_not_occurs _ _ h, pyStrip_idem]

/-- Witness for C8 (amended) on a concrete message that mentions the bot. -/
theorem normalize_text_idem_witness :
    normalize_text (toL "B") (normalize_text (toL "B") (toL " hi <@B> yo ")) =
      normalize_text (toL "B") (toL " hi <@B> yo ") :=
  normalize_text_idem (toL "B") (toL " hi <@B> yo ") (by decide)
